import Mathlib

/-!
Verification of the WellPro anomaly-detection engine.

This file gives a shallow embedding of the core of the repository
`wellpro-anomalies` (backend anomaly detectors and their orchestration) and
proves properties of the embedded code.

Conventions of the embedding:
* Python floats are modelled as exact rationals (`ℚ`) where the code performs
  only field operations and comparisons, and as real numbers (`ℝ`) where the
  code uses `sqrt`, `exp`, `log`, `cos` or the FFT.
* A Python `collections.deque` with a `maxlen` bound is a list together with
  its bound; appending keeps the last `maxlen` elements.
* A detector call that may raise an exception is modelled as a value of
  `Except Unit Bool`; `asyncio.gather` propagates the first error.
* The AMMAD detectors' statistical sub-scores involve transcendental float
  computations; where a claim quantifies over them ("irrespective of the
  statistical sub-scores") they are passed as parameters of the embedded
  control flow, which otherwise mirrors the source line by line.
-/

namespace WellPro

/-- Numerical guard constant `EPS = 1e-10` from `methods.py`, as a rational. -/
def EPS : ℚ := 1 / 10 ^ 10

/-- The key set of the `METHODS` registry dict in `methods.py`. -/
def METHODS : List String := ["z_score", "lof", "fft", "ammad"]

/-- Default window size of the Z-score detector (`Z_SCORE_WINDOW_SIZE = 30`). -/
def Z_SCORE_WINDOW_SIZE : ℕ := 30

/-- Default window size of the LOF detector (`LOF_WINDOW_SIZE = 60`). -/
def LOF_WINDOW_SIZE : ℕ := 60

/-- Default window size of the FFT detector (`FFT_WINDOW_SIZE = 64`). -/
def FFT_WINDOW_SIZE : ℕ := 64

/-- The value `DEFAULT_WINDOWS_SIZE = max(FFT_WINDOW_SIZE, LOF_WINDOW_SIZE,
Z_SCORE_WINDOW_SIZE)` from `app/main.py`. -/
def DEFAULT_WINDOWS_SIZE : ℕ :=
  max FFT_WINDOW_SIZE (max LOF_WINDOW_SIZE Z_SCORE_WINDOW_SIZE)

/-- Last `n` elements of a list, in order.  This is what a
`collections.deque` with `maxlen = n` retains, and what
`deque(old_buffer, maxlen=n)` produces from `old_buffer`. -/
def takeLast {α : Type} (n : ℕ) (l : List α) : List α :=
  l.drop (l.length - n)

/-- The Python `str.lower()` call applied to method names, written over the
character list (only the ASCII range matters for matching the registry
names, which are all ASCII). -/
def strLower (s : String) : String := ⟨s.toList.map Char.toLower⟩

/-- A Python `collections.deque` of floats with a `maxlen` bound. -/
structure Buffer where
  maxlen : ℕ
  data : List ℚ
deriving DecidableEq

/-- Appending to a bounded deque: the oldest element is evicted once the
bound is exceeded. -/
def Buffer.push (b : Buffer) (x : ℚ) : Buffer :=
  ⟨b.maxlen, takeLast b.maxlen (b.data ++ [x])⟩

/-- Rebuilding a deque over the same contents with a new bound, as in
`deque(old_buffer, maxlen=new_cap)`: the last `new_cap` elements survive. -/
def Buffer.resize (b : Buffer) (cap : ℕ) : Buffer :=
  ⟨cap, takeLast cap b.data⟩

/-- The state of the `defaultdict` factory of `AnalysisState.data_buffers`
in `analysis_utils.py`.  In `__init__` the factory captures the value of the
`default_window_size` argument (`fixedCap`); after `update_method` replaces
the dict, the new factory reads `self.window_size` at creation time
(`liveCap`). -/
inductive BufFactory
  | fixedCap (c : ℕ)
  | liveCap
deriving DecidableEq

/-- The `AnalysisState` class of `analysis_utils.py`: the active analysis
configuration plus the channel-name → deque map.  The `method_params` dict of
the source only mirrors `window_size` and `score_threshold` and is not
modelled separately. -/
structure AnalysisState where
  method : String
  window_size : ℕ
  score_threshold : ℚ
  data_buffers : List (String × Buffer)
  factory : BufFactory
deriving DecidableEq

/-- Capacity that the buffer factory currently hands to a fresh channel. -/
def AnalysisState.factoryCapacity (s : AnalysisState) : ℕ :=
  match s.factory with
  | .fixedCap c => c
  | .liveCap => s.window_size + 1

/-- Reading `self.data_buffers[key]` on a `defaultdict`: a missing channel
is created empty with the factory's capacity. -/
def AnalysisState.getBuffer (s : AnalysisState) (ch : String) : Buffer :=
  match s.data_buffers.lookup ch with
  | some b => b
  | none => ⟨s.factoryCapacity, []⟩

/-- The state built by `AnalysisState.__init__(default_window_size)`. -/
def AnalysisState.init (default_window_size : ℕ) : AnalysisState :=
  ⟨"fft", default_window_size, 1 / 2, [], .fixedCap (default_window_size + 1)⟩

/-- The method `AnalysisState.update_method` of `analysis_utils.py`:
lower-case the name; reject an unknown name; on an actual change clear the
buffer map and install a factory reading the current window size. -/
def AnalysisState.update_method (s : AnalysisState) (m : String) :
    AnalysisState × Bool :=
  let m' := strLower m
  if m' ∈ METHODS then
    if m' ≠ s.method then
      ({ s with method := m', data_buffers := [], factory := .liveCap }, true)
    else (s, true)
  else (s, false)

/-- The method `AnalysisState.update_window_size` of `analysis_utils.py`:
reject `None` and negative values; on an actual change store the new size and
rebuild every existing buffer as `deque(old_buffer, maxlen=window_size+1)`. -/
def AnalysisState.update_window_size (s : AnalysisState) (w : Option ℤ) :
    AnalysisState × Bool :=
  match w with
  | none => (s, false)
  | some v =>
    if v < 0 then (s, false)
    else if v.toNat ≠ s.window_size then
      ({ s with window_size := v.toNat,
                data_buffers :=
                  s.data_buffers.map
                    (fun kb => (kb.1, kb.2.resize (v.toNat + 1))) }, true)
    else (s, true)

/-- An abstract detector as seen by the orchestrators: given a channel name
and the materialised buffer contents, it either returns a verdict or raises
(`Except.error`). -/
def DetFun : Type := String → List ℚ → Except Unit Bool

/-- One input record of the batch endpoint: the value of the `время` column
plus the remaining channel → value pairs. -/
structure Row where
  time : ℚ
  cells : List (String × ℚ)

/-- Contents of `prev[key]` in `analyze_file`: channel buffers are plain
bounded lists here (`defaultdict(lambda: deque(maxlen=deque_length))`). -/
def getBuf (bufs : List (String × List ℚ)) (ch : String) : List ℚ :=
  (bufs.lookup ch).getD []

/-- The effect of `prev[key].append(value)` for buffers of bound `n`. -/
def pushBuf (n : ℕ) (bufs : List (String × List ℚ)) (ch : String) (v : ℚ) :
    List (String × List ℚ) :=
  match bufs with
  | [] => [(ch, takeLast n [v])]
  | (k, b) :: rest =>
    if k = ch then (k, takeLast n (b ++ [v])) :: rest
    else (k, b) :: pushBuf n rest ch v

/-- The task-building loop of `analyze_file`: for each channel of the row,
append the value to the channel's buffer and call the detector on a snapshot
of the buffer.  Returns the detector results in channel order together with
the updated buffers. -/
def rowTasks (det : DetFun) (n : ℕ) (bufs : List (String × List ℚ)) :
    List (String × ℚ) → List (Except Unit Bool) × List (String × List ℚ)
  | [] => ([], bufs)
  | (ch, v) :: rest =>
    let bufs' := pushBuf n bufs ch v
    let t := det ch (getBuf bufs' ch)
    let r := rowTasks det n bufs' rest
    (t :: r.1, r.2)

/-- The error semantics of `await asyncio.gather(*tasks)` with default
options: the first raised exception propagates to the caller. -/
def gather : List (Except Unit Bool) → Except Unit (List Bool)
  | [] => .ok []
  | t :: rest =>
    match t with
    | .error e => .error e
    | .ok b =>
      match gather rest with
      | .error e => .error e
      | .ok bs => .ok (b :: bs)

/-- The per-row batch loop of `analyze_file` in `app/main.py`: process rows
in order, gathering per-channel detector verdicts; pair each value with its
verdict and count the `true` verdicts into `total_anomalies`.  A detector
exception escapes the loop and aborts the request. -/
def analyze_file_loop (det : DetFun) (n : ℕ)
    (bufs : List (String × List ℚ)) :
    List Row → Except Unit (List (List (String × ℚ × Bool) × ℚ) × ℕ)
  | [] => .ok ([], 0)
  | r :: rest =>
    let tb := rowTasks det n bufs r.cells
    match gather tb.1 with
    | .error e => .error e
    | .ok results =>
      let rowOut := List.zipWith (fun (cv : String × ℚ) b => (cv.1, cv.2, b))
        r.cells results
      let cnt := (results.filter id).length
      match analyze_file_loop det n tb.2 rest with
      | .error e => .error e
      | .ok pr => .ok ((rowOut, r.time) :: pr.1, cnt + pr.2)

/-- Inclusion test of `analyze_file` for the optional `window_size` query
parameter: `if window_size and window_size >= 0` — a Python `0` is falsy, so
`0` is treated exactly like an omitted parameter. -/
def windowParamOf (w : Option ℤ) : Option ℤ :=
  match w with
  | none => none
  | some v => if v ≠ 0 ∧ 0 ≤ v then some v else none

/-- Inclusion test of `analyze_file` for the optional `score_threshold`
query parameter: `if score_threshold and score_threshold >= 0` — `0.0` is
falsy. -/
def thresholdParamOf (t : Option ℚ) : Option ℚ :=
  match t with
  | none => none
  | some v => if v ≠ 0 ∧ 0 ≤ v then some v else none

/-- The bound `deque_length = (window_size if window_size and
window_size >= 0 else DEFAULT_WINDOWS_SIZE) + 1` of `analyze_file`. -/
def dequeLengthOf (w : Option ℤ) : ℕ :=
  (match w with
   | some v => if v ≠ 0 ∧ 0 ≤ v then v.toNat else DEFAULT_WINDOWS_SIZE
   | none => DEFAULT_WINDOWS_SIZE) + 1

/-- The full batch run of `analyze_file` over a detector family `D` that
receives the assembled optional method parameters (as the `**method_params`
dict does). -/
def analyze_file_run (D : Option ℤ → Option ℚ → DetFun) (w : Option ℤ)
    (t : Option ℚ) (rows : List Row) :
    Except Unit (List (List (String × ℚ × Bool) × ℚ) × ℕ) :=
  analyze_file_loop (D (windowParamOf w) (thresholdParamOf t))
    (dequeLengthOf w) [] rows

/-- The function `apply_analysis_method` of `analysis_utils.py`: an unknown
method name yields `false`; a buffer of fewer than two samples yields
`false`; a detector exception is caught and absorbed as `false`
(`except Exception: return False`). -/
def apply_analysis_method (methodKnown : Bool) (bufLen : ℕ)
    (res : Except Unit Bool) : Bool :=
  if methodKnown = false then false
  else if bufLen < 2 then false
  else
    match res with
    | .error _ => false
    | .ok b => b

/-- The per-record streaming loop body of the WebSocket endpoint in
`app/main.py`: for each non-time channel, append the value to the channel's
buffer and, once at least two samples are buffered, evaluate the detector
through `apply_analysis_method`; otherwise report `false`.  Every channel of
the record receives a decision. -/
def streamProcessRecord (det : DetFun) (methodKnown : Bool) (n : ℕ)
    (bufs : List (String × List ℚ)) :
    List (String × ℚ) → List (String × ℚ × Bool) × List (String × List ℚ)
  | [] => ([], bufs)
  | (ch, v) :: rest =>
    let bufs' := pushBuf n bufs ch v
    let buf := getBuf bufs' ch
    let decision :=
      if 2 ≤ buf.length then
        apply_analysis_method methodKnown buf.length (det ch buf)
      else false
    let r := streamProcessRecord det methodKnown n bufs' rest
    ((ch, v, decision) :: r.1, r.2)

/-- A concrete detector family that raises on channel `a` at its very first
sample and answers `false` everywhere else; used to exhibit the batch
orchestrator's behaviour on a detector fault. -/
def badDet : DetFun := fun ch data =>
  if ch = "a" ∧ data.length = 1 then .error () else .ok false

/-- A concrete two-row, two-channel batch input. -/
def cexRows : List Row :=
  [⟨0, [("a", 1), ("b", 2)]⟩, ⟨1, [("a", 3), ("b", 4)]⟩]

/-- Numerical guard constant `EPS = 1e-10` as a real, for the detectors that
are modelled over `ℝ`. -/
noncomputable def EPS_R : ℝ := 1 / 10 ^ 10

/-- Arithmetic mean `np.mean` of a list of reals (sum divided by length). -/
noncomputable def listMean (l : List ℝ) : ℝ := l.sum / l.length

/-- Population standard deviation `np.std` of a list of reals: the square
root of the mean squared deviation from the mean. -/
noncomputable def listStd (l : List ℝ) : ℝ :=
  Real.sqrt (((l.map (fun x => (x - listMean l) ^ 2)).sum) / l.length)

/-- The slice `data_list[-window_size - 1:-1]`: the `W` elements preceding
the last element (for inputs longer than `W`). -/
def zWindow {α : Type} (d : List α) (W : ℕ) : List α :=
  (d.drop (d.length - (W + 1))).take W

/-- The coroutine `z_score` of `app/methods.py`: for inputs longer than the
window, compare the deviation of the last sample from the trailing window's
mean, in units of the window's population standard deviation, against the
threshold; a window with standard deviation below `0.01` is treated as a
dead signal. -/
noncomputable def z_score (data : List ℝ) (window_size : ℕ)
    (score_threshold : ℝ) : Bool :=
  if data.length ≤ window_size then false
  else
    let window := zWindow data window_size
    let current_value := data.getLastD 0
    let mean := listMean window
    let std := listStd window
    if std < 0.01 then false
    else decide (|(current_value - mean) / std| > score_threshold)

/-- Arithmetic mean `np.mean` of a list of rationals. -/
def qMean (l : List ℚ) : ℚ := l.sum / l.length

/-- The helper `local_reach_density(point, arr, k)` of the `lof` coroutine
in `app/methods.py`, a pure rational computation: sort the distances from
`point` to the other elements of `arr`, read off the k-distance, and invert
the mean of the first `k` reachability distances. -/
def local_reach_density (point : ℚ) (arr : List ℚ) (k : ℕ) : ℚ :=
  let others := arr.filter (fun x => x ≠ point)
  let distances := (others.map (fun x => |x - point|)).mergeSort (fun a b => a ≤ b)
  if distances = [] then 1
  else
    let k_dist := if k ≤ distances.length then distances.getD (k - 1) 0
      else distances.getLastD 0
    let reach_dists := (others.map (fun x => max |point - x| k_dist)).take k
    1 / max (qMean reach_dists) EPS

/-- The coroutine `lof` of `app/methods.py`: guard on window fill and on a
constant window, then compare the ratio of the mean local reachability
density of the `K_LOF = 5` nearest neighbours of the last sample to the last
sample's own density against the threshold. -/
def lof (data : List ℚ) (window_size : ℕ) (score_threshold : ℚ) : Bool :=
  if data.length ≤ window_size then false
  else
    let window := zWindow data window_size
    let last_value := data.getLastD 0
    if window.all (fun v => |v - window.headD 0| < EPS)
        ∧ |last_value - window.headD 0| < EPS then false
    else
      let lrd_current := local_reach_density last_value window 5
      let pairs := (window.enum.map (fun p => (p.1, |p.2 - last_value|))).mergeSort
        (fun a b => a.2 ≤ b.2)
      let k_nearest_indices := (pairs.take 5).map (fun p => p.1)
      let neighbor_lrds := k_nearest_indices.map
        (fun idx => local_reach_density (window.getD idx 0) window 5)
      if neighbor_lrds = [] ∨ lrd_current < EPS then false
      else decide (qMean neighbor_lrds / lrd_current > score_threshold)

/-- The `np.hanning(M)` coefficient at position `n`:
`0.5 - 0.5 * cos(2 * pi * n / (M - 1))`, with the single-point window equal
to `1`. -/
noncomputable def hanning (M : ℕ) (n : ℕ) : ℝ :=
  if M = 1 then 1
  else 1 / 2 - 1 / 2 * Real.cos (2 * Real.pi * n / ((M : ℝ) - 1))

/-- Magnitude of the `k`-th coefficient of the forward discrete Fourier
transform (`np.fft.fft`) of the length-`N` sequence `x`. -/
noncomputable def dft_magnitude (x : List ℝ) (N k : ℕ) : ℝ :=
  Complex.abs (∑ n ∈ Finset.range N,
    ((x.getD n 0 : ℝ) : ℂ) *
      Complex.exp (-2 * Real.pi * Complex.I * k * n / N))

/-- The mean-subtracted, Hann-weighted block `window_weighted` built by the
`fft` coroutine from the last `W` samples. -/
noncomputable def fftWeighted (d : List ℝ) (W : ℕ) : List ℝ :=
  let window := d.drop (d.length - W)
  let centered := window.map (fun x => x - listMean window)
  (List.range W).map (fun n => centered.getD n 0 * hanning W n)

/-- The vector `magnitudes = np.abs(np.fft.fft(window_weighted))` of the
`fft` coroutine. -/
noncomputable def fftMagnitudes (d : List ℝ) (W : ℕ) : List ℝ :=
  (List.range W).map (fun k => dft_magnitude (fftWeighted d W) W k)

/-- The coroutine `fft` of `app/methods.py`: on a filled window, mean-center
the last `W` samples, weight by a Hann window, take the DFT magnitudes, and
compare the share of the total magnitude carried by the slice
`magnitudes[W // 4 : W // 2]` against the threshold; a near-zero total is a
dead signal. -/
noncomputable def fft (data : List ℝ) (window_size : ℕ)
    (score_threshold : ℝ) : Bool :=
  if data.length < window_size then false
  else
    let magnitudes := fftMagnitudes data window_size
    let total_energy := magnitudes.sum
    if total_energy < EPS_R then false
    else decide
      (((magnitudes.drop (window_size / 4)).take
          (window_size / 2 - window_size / 4)).sum / total_energy
        > score_threshold)

/-- One entry of a safety-limit table: the dict keys `min`, `max`,
`critical`. -/
structure SafetyLimit where
  min : ℚ
  max : ℚ
  critical : ℚ
deriving DecidableEq

/-- The `SAFETY_LIMITS` table of `app/methods.py` (every entry of this
variant carries all three keys). -/
def SAFETY_LIMITS_app : String → Option SafetyLimit := fun name =>
  match name with
  | "скорость_спо" => some ⟨-1/10, 5/2, 2⟩
  | "скорость_бурения" => some ⟨0, 35, 30⟩
  | "дмк" => some ⟨0, 100, 90⟩
  | "нагрузка" => some ⟨-10, 20, 15⟩
  | "обороты_ротора" => some ⟨0, 100, 80⟩
  | "момент_ротора" => some ⟨0, 25, 22⟩
  | "расход_на_входе" => some ⟨0, 25, 20⟩
  | "давление_на_входе" => some ⟨0, 400, 350⟩
  | "температура_на_выходе" => some ⟨5, 50, 45⟩
  | "вес_на_крюке" => some ⟨10, 150, 130⟩
  | "уровень_в_емкости" => some ⟨1/2, 5/2, 11/5⟩
  | "глубина" => some ⟨0, 10000, 9000⟩
  | _ => none

/-- The `param_weights` table of `AMMADDetector.__init__` in
`app/methods.py`, with the `default_weights` triple `(0.4, 0.4, 0.2)` for
unknown channels. -/
def param_weights : String → ℚ × ℚ × ℚ := fun name =>
  match name with
  | "скорость_спо" => (2/10, 4/10, 4/10)
  | "скорость_бурения" => (2/10, 4/10, 4/10)
  | "момент_ротора" => (3/10, 4/10, 3/10)
  | "дмк" => (3/10, 5/10, 2/10)
  | "глубина" => (8/10, 1/10, 1/10)
  | "вес_на_крюке" => (7/10, 2/10, 1/10)
  | "температура_на_выходе" => (8/10, 2/10, 0)
  | "давление_на_входе" => (5/10, 4/10, 1/10)
  | "расход_на_входе" => (6/10, 3/10, 1/10)
  | "уровень_в_емкости" => (4/10, 5/10, 1/10)
  | "нагрузка" => (4/10, 3/10, 3/10)
  | "обороты_ротора" => (4/10, 2/10, 4/10)
  | _ => (4/10, 4/10, 2/10)

/-- The tail of `AMMADDetector.detect` in `app/methods.py` after the safety
check (steps 2-4 of the method): combine the normalised sub-scores with the
per-channel weight triple and decide by the 2-of-3 vote of the original
detectors or by the combined score against `AMMAD_SCORE_THRESHOLD = 0.75`.
The sub-scores `s_z`, `s_lof`, `s_fft` and the vote count are transcendental
functions of the history in the source and enter here as parameters. -/
def AMMAD_statistical_tail (param_name : String) (s_z s_lof s_fft : ℚ)
    (orig_votes : ℕ) : Bool :=
  let w := param_weights param_name
  let final_score := s_z * w.1 + s_lof * w.2.1 + s_fft * w.2.2
  if 2 ≤ orig_votes then true
  else decide (final_score > 3/4)

/-- The method `AMMADDetector.detect` of `app/methods.py`: append the value
to the channel's 300-bounded history; fewer than 20 samples is warmup;
a sample above the channel's safety `max` or below its safety `min` is
anomalous immediately; otherwise fall through to the statistical tail. -/
def AMMAD_detect (param_name : String) (history : List ℚ) (value : ℚ)
    (s_z s_lof s_fft : ℚ) (orig_votes : ℕ) : Bool :=
  let h_list := takeLast 300 (history ++ [value])
  if h_list.length < 20 then false
  else
    match SAFETY_LIMITS_app param_name with
    | some limits =>
      if value > limits.max then true
      else if value < limits.min then true
      else AMMAD_statistical_tail param_name s_z s_lof s_fft orig_votes
    | none => AMMAD_statistical_tail param_name s_z s_lof s_fft orig_votes

/-- Whether the character list `sub` occurs contiguously inside `l`; the
Python substring test `sub in s`. -/
def listStartsWith : List Char → List Char → Bool
  | _, [] => true
  | [], _ :: _ => false
  | a :: as, b :: bs => a = b && listStartsWith as bs

/-- Substring occurrence over character lists, by scanning every start. -/
def listHasSub : List Char → List Char → Bool
  | [], sub => sub.isEmpty
  | a :: t, sub => listStartsWith (a :: t) sub || listHasSub t sub

/-- The Python test `sub in s` on strings. -/
def strContains (s sub : String) : Bool := listHasSub s.toList sub.toList

/-- The per-channel configuration bundle that `_get_param_config` of
`backend/methods.py` assembles; only the keys read by the modelled code
paths are kept (`min_history` from the base config; `max_change_rate`,
`pressure_spike`, `torque_spike` read by `_detect_special_cases` with
`dict.get`; `require_consensus` and `confidence_threshold` read by the
decision step).  Keys that only feed the adaptive-weight statistics are not
modelled. -/
structure ParamConfig where
  min_history : ℕ
  max_change_rate : Option ℚ
  pressure_spike : Option ℚ
  torque_spike : Option ℚ
  require_consensus : Bool
  confidence_threshold : ℚ
deriving DecidableEq

/-- The method `AMMADDetector._get_param_config` of `backend/methods.py`:
`base_config` fixes `min_history = 40`; the twelve known drilling channels
override the remaining keys; an unknown channel gets the default bundle. -/
def get_param_config : String → ParamConfig := fun name =>
  match name with
  | "глубина" => ⟨40, some 5, none, none, true, 98/100⟩
  | "скорость_бурения" => ⟨40, some 10, none, none, false, 8/10⟩
  | "давление_на_входе" => ⟨40, some 50, some 30, none, true, 85/100⟩
  | "вес_на_крюке" => ⟨40, some 10, none, none, true, 9/10⟩
  | "момент_ротора" => ⟨40, some 5, none, some 3, false, 8/10⟩
  | "обороты_ротора" => ⟨40, some 10, none, none, false, 75/100⟩
  | "уровень_в_емкости" => ⟨40, some (1/10), none, none, true, 98/100⟩
  | "дмк" => ⟨40, some 10, none, none, false, 75/100⟩
  | "нагрузка" => ⟨40, some 3, none, none, false, 8/10⟩
  | "расход_на_входе" => ⟨40, some 5, none, none, true, 85/100⟩
  | "температура_на_выходе" => ⟨40, some 2, none, none, true, 9/10⟩
  | "скорость_спо" => ⟨40, some (1/2), none, none, false, 7/10⟩
  | _ => ⟨40, none, none, none, true, 85/100⟩

/-- The `SAFETY_LIMITS` table of `backend/methods.py` (this variant has ten
entries and different bounds from the `app` variant). -/
def SAFETY_LIMITS_backend : String → Option SafetyLimit := fun name =>
  match name with
  | "давление_на_входе" => some ⟨0, 400, 350⟩
  | "температура_на_выходе" => some ⟨10, 50, 45⟩
  | "момент_ротора" => some ⟨0, 20, 15⟩
  | "скорость_бурения" => some ⟨0, 25, 20⟩
  | "вес_на_крюке" => some ⟨20, 120, 100⟩
  | "глубина" => some ⟨3430, 3500, 0⟩
  | "обороты_ротора" => some ⟨0, 50, 40⟩
  | "уровень_в_емкости" => some ⟨1/2, 2, 9/5⟩
  | "расход_на_входе" => some ⟨0, 20, 15⟩
  | "нагрузка" => some ⟨-5, 10, 8⟩
  | _ => none

/-- The rate-of-change block of `_detect_special_cases` in
`backend/methods.py` (reached after the safety-limit checks): compare the
jump from the remembered `last_value` against the channel's
`max_change_rate` and, for channels whose name contains `давлен` or
`момент`, against the `pressure_spike` (default `20.0`) or `torque_spike`
(default `2.0`) sub-limit.  On fall-through `last_value` is set to the
current value; any firing check leaves it untouched. -/
def rate_check (param : String) (last_value : Option ℚ) (value : ℚ) :
    Option Bool × Option ℚ :=
  match last_value with
  | none => (none, some value)
  | some prev =>
    let rate_of_change := |value - prev|
    let cfg := get_param_config param
    let over_max_rate : Bool :=
      match cfg.max_change_rate with
      | some r => decide (rate_of_change > r)
      | none => false
    if over_max_rate then (some true, last_value)
    else if strContains param "давлен" = true
        ∧ rate_of_change > cfg.pressure_spike.getD 20 then
      (some true, last_value)
    else if strContains param "момент" = true
        ∧ rate_of_change > cfg.torque_spike.getD 2 then
      (some true, last_value)
    else (none, some value)

/-- The method `AMMADDetector._detect_special_cases` of
`backend/methods.py`: below ten samples of history there is no verdict; a
sample below the safety `min`, above the safety `max`, or above the safety
`critical` is an immediate anomaly; otherwise the rate-of-change block
runs.  Returns the optional short-circuit verdict together with the updated
`last_value` field. -/
def detect_special_cases (param : String) (last_value : Option ℚ)
    (hist_len : ℕ) (value : ℚ) : Option Bool × Option ℚ :=
  if hist_len < 10 then (none, last_value)
  else
    match SAFETY_LIMITS_backend param with
    | some limits =>
      if value < limits.min then (some true, last_value)
      else if value > limits.max then (some true, last_value)
      else if value > limits.critical then (some true, last_value)
      else rate_check param last_value value
    | none => rate_check param last_value value

/-- The decision skeleton of `AMMADDetector.detect` in
`backend/methods.py`: append to the 300-bounded history, return `false`
below `min_history` samples, otherwise let `_detect_special_cases`
short-circuit; only when it returns no verdict does the statistical
pipeline (weights, sub-scores, consensus — abstracted as `stat_verdict`,
since it is a transcendental function of the history) decide.  The
`anomaly_history` and counter fields of the class do not feed back into any
verdict and are not modelled.  Returns the verdict together with the
updated history and `last_value`. -/
def backend_detect (param : String) (history : List ℚ)
    (last_value : Option ℚ) (value : ℚ) (stat_verdict : Bool) :
    Bool × List ℚ × Option ℚ :=
  let history' := takeLast 300 (history ++ [value])
  let cfg := get_param_config param
  if history'.length < cfg.min_history then (false, history', last_value)
  else
    match detect_special_cases param last_value history'.length value with
    | (some b, lv) => (b, history', lv)
    | (none, lv) => (stat_verdict, history', lv)

/-- The Z-score normalisation of `_normalize_scores` in
`backend/methods.py`: a sigmoid centred at `Z_SCORE_THRESHOLD = 3.0` with
slope `1.5`. -/
noncomputable def normalize_z (z : ℝ) : ℝ :=
  1 / (1 + Real.exp (-(z - 3) / 1.5))

/-- The LOF normalisation of `_normalize_scores` in `backend/methods.py`:
zero at or below `1`, else `log1p(lof - 1) / log1p(LOF_SCORE_THRESHOLD - 1)`
capped at `1` (with `LOF_SCORE_THRESHOLD = 25.0`). -/
noncomputable def normalize_lof (l : ℝ) : ℝ :=
  if l ≤ 1 then 0
  else min 1 (Real.log (1 + (l - 1)) / Real.log (1 + 24))

/-- The FFT normalisation of `_normalize_scores` in `backend/methods.py`:
linear in the raw high-frequency share against
`FFT_SCORE_THRESHOLD = 0.25`, capped at `1`. -/
noncomputable def normalize_fft (f : ℝ) : ℝ := min 1 (f / 0.25)

/-- The decision step of `AMMADDetector.detect` in `backend/methods.py`
(the block deriving `is_anomaly` from the normalised sub-scores, the
adaptive weights and the confidence threshold): with consensus required,
two of the three normalised sub-scores must exceed `0.7` and the combined
score must reach the threshold, unless the combined score reaches the
threshold plus `0.15`; without consensus, the combined score must reach the
threshold, or some sub-score must exceed `0.9` with the combined score
above the threshold minus `0.1`. -/
noncomputable def ammad_decision (require_consensus : Bool)
    (confidence_threshold z_norm lof_norm fft_norm
      z_weight lof_weight fft_weight : ℝ) : Bool :=
  let final_score := z_norm * z_weight + lof_norm * lof_weight
    + fft_norm * fft_weight
  if require_consensus then
    let anomaly_votes : ℕ :=
      (if z_norm > 0.7 then 1 else 0) + (if lof_norm > 0.7 then 1 else 0)
        + (if fft_norm > 0.7 then 1 else 0)
    if 2 ≤ anomaly_votes ∧ confidence_threshold ≤ final_score then true
    else if confidence_threshold + 0.15 ≤ final_score then true
    else false
  else
    if confidence_threshold ≤ final_score then true
    else if 0.9 < max z_norm (max lof_norm fft_norm)
        ∧ confidence_threshold - 0.1 < final_score then true
    else false

/-- Formalisation of the claim's notion of votes (spec wording: the count
of the three component detectors whose raw verdict, using their own
thresholds `3.0`, `25.0` and `0.25`, is anomalous).  This definition follows
the specification text, for comparison against the code's vote count. -/
noncomputable def specRawVotes (z_raw lof_raw fft_raw : ℝ) : ℕ :=
  (if z_raw > 3 then 1 else 0) + (if lof_raw > 25 then 1 else 0)
    + (if fft_raw > 0.25 then 1 else 0)

/-! ### General lemmas about the embedding -/

/-- The tail kept by a bounded deque has length `min (original length) n`. -/
theorem takeLast_length {α : Type} (n : ℕ) (l : List α) :
    (takeLast n l).length = min l.length n := by
  simp only [takeLast, List.length_drop]
  omega

/-- The tail kept by a bounded deque is a suffix of the original list. -/
theorem takeLast_suffix {α : Type} (n : ℕ) (l : List α) :
    (takeLast n l).IsSuffix l :=
  List.drop_suffix _ _

/-- Every channel configuration that `_get_param_config` can produce keeps
the base value `min_history = 40` (no per-channel dict overrides it). -/
theorem min_history_eq_forty (p : String) :
    (get_param_config p).min_history = 40 := by
  unfold get_param_config
  split <;> rfl

/-- If one of the gathered tasks raised, `asyncio.gather` raises. -/
theorem gather_error_of_mem (ts : List (Except Unit Bool))
    (h : ∃ t ∈ ts, ∃ e, t = Except.error e) :
    ∃ e, gather ts = Except.error e := by
  induction ts with
  | nil =>
    obtain ⟨t, ht, _⟩ := h
    simp at ht
  | cons a rest ih =>
    obtain ⟨t, ht, e, he⟩ := h
    rcases List.mem_cons.mp ht with rfl | hmem
    · subst he
      exact ⟨e, rfl⟩
    · cases a with
      | error e2 => exact ⟨e2, rfl⟩
      | ok b =>
        obtain ⟨e3, he3⟩ := ih ⟨t, hmem, e, he⟩
        refine ⟨e3, ?_⟩
        simp only [gather, he3]

/-- The streaming loop body hands every channel of the record a decision,
whatever the detector does. -/
theorem streamProcessRecord_length (det : DetFun) (known : Bool) (n : ℕ)
    (cells : List (String × ℚ)) (bufs : List (String × List ℚ)) :
    (streamProcessRecord det known n bufs cells).1.length = cells.length := by
  induction cells generalizing bufs with
  | nil => rfl
  | cons c rest ih =>
    obtain ⟨ch, v⟩ := c
    simp only [streamProcessRecord, List.length_cons, ih]

/-- If the rate-of-change block has a remembered previous value and any of
its three jump tests fires, it reports an anomaly. -/
theorem rate_check_fires (param : String) (prev value : ℚ)
    (htrig :
      (∃ r, (get_param_config param).max_change_rate = some r
          ∧ r < |value - prev|) ∨
      (strContains param "давлен" = true
          ∧ (get_param_config param).pressure_spike.getD 20 < |value - prev|) ∨
      (strContains param "момент" = true
          ∧ (get_param_config param).torque_spike.getD 2 < |value - prev|)) :
    (rate_check param (some prev) value).1 = some true := by
  unfold rate_check
  by_cases h1 : (match (get_param_config param).max_change_rate with
      | some r => decide (|value - prev| > r)
      | none => false) = true
  · simp only [h1, if_true]
  · rw [Bool.not_eq_true] at h1
    simp only [h1, Bool.false_eq_true, if_false]
    by_cases h2 : strContains param "давлен" = true
        ∧ |value - prev| > (get_param_config param).pressure_spike.getD 20
    · simp only [if_pos h2]
    · simp only [if_neg h2]
      by_cases h3 : strContains param "момент" = true
          ∧ |value - prev| > (get_param_config param).torque_spike.getD 2
      · simp only [if_pos h3]
      · exfalso
        rcases htrig with ⟨r, hr, hlt⟩ | hp | ht
        · rw [hr] at h1
          simp only [decide_eq_false_iff_not, gt_iff_lt, not_lt] at h1
          exact absurd hlt (not_lt.mpr h1)
        · exact h2 ⟨hp.1, hp.2⟩
        · exact h3 ⟨ht.1, ht.2⟩

/-! ### Claim theorems -/

/-- C7: a valid method name different from the current one clears every
channel buffer, so that any subsequently touched channel starts as a fresh
empty buffer of capacity `window_size + 1` for the current window size,
while an invalid name leaves the whole state (method and buffers)
unchanged. -/
theorem update_method_clears_buffers (s : AnalysisState) (m : String) :
    (strLower m ∈ METHODS → strLower m ≠ s.method →
      (s.update_method m).1.method = strLower m ∧
      (s.update_method m).1.window_size = s.window_size ∧
      (s.update_method m).1.data_buffers = [] ∧
      (s.update_method m).2 = true ∧
      ∀ ch, (s.update_method m).1.getBuffer ch
        = ⟨s.window_size + 1, []⟩) ∧
    (strLower m ∉ METHODS → s.update_method m = (s, false)) := by
  constructor
  · intro hv hne
    simp [AnalysisState.update_method, hv, hne, AnalysisState.getBuffer,
      AnalysisState.factoryCapacity]
  · intro hv
    simp [AnalysisState.update_method, hv]

/-- Witness for C7 at a concrete state and method name. -/
theorem update_method_clears_buffers_w :
    ((AnalysisState.mk "fft" 50 (1/2) [("a", ⟨51, [1, 2, 3]⟩)]
        (.fixedCap 51)).update_method "Z_Score").1.data_buffers = [] ∧
    ((AnalysisState.mk "fft" 50 (1/2) [("a", ⟨51, [1, 2, 3]⟩)]
        (.fixedCap 51)).update_method "Z_Score").2 = true := by
  have h := (update_method_clears_buffers
    (AnalysisState.mk "fft" 50 (1/2) [("a", ⟨51, [1, 2, 3]⟩)]
      (.fixedCap 51)) "Z_Score").1 (by decide) (by decide)
  exact ⟨h.2.2.1, h.2.2.2.1⟩

/-- C8: a non-negative window size different from the current one is
accepted; every existing buffer is rebuilt with capacity `W + 1` over the
last `min (old length) (W + 1)` of its previous elements, in order (a
suffix of the old contents); a negative or missing (`None`) window size is
rejected with the state unchanged. -/
theorem update_window_size_resizes (s : AnalysisState) (w : ℤ) :
    (0 ≤ w → w.toNat ≠ s.window_size →
      (s.update_window_size (some w)).1.window_size = w.toNat ∧
      (s.update_window_size (some w)).2 = true ∧
      (s.update_window_size (some w)).1.data_buffers
        = s.data_buffers.map
            (fun kb => (kb.1,
              ⟨w.toNat + 1, takeLast (w.toNat + 1) kb.2.data⟩)) ∧
      ∀ kb ∈ s.data_buffers,
        (takeLast (w.toNat + 1) kb.2.data).length
          = min kb.2.data.length (w.toNat + 1) ∧
        (takeLast (w.toNat + 1) kb.2.data).IsSuffix kb.2.data) ∧
    (w < 0 → s.update_window_size (some w) = (s, false)) ∧
    s.update_window_size none = (s, false) := by
  refine ⟨?_, ?_, rfl⟩
  · intro h0 hne
    have hnl : ¬ w < 0 := not_lt.mpr h0
    refine ⟨?_, ?_, ?_, ?_⟩
    · simp [AnalysisState.update_window_size, hnl, hne]
    · simp [AnalysisState.update_window_size, hnl, hne]
    · simp [AnalysisState.update_window_size, hnl, hne, Buffer.resize]
    · intro kb _
      exact ⟨takeLast_length _ _, takeLast_suffix _ _⟩
  · intro hneg
    simp [AnalysisState.update_window_size, hneg]

/-- Witness for C8 at a concrete state, shrinking a five-element buffer to
capacity two. -/
theorem update_window_size_resizes_w :
    ((AnalysisState.mk "fft" 50 (1/2) [("a", ⟨51, [1, 2, 3, 4, 5]⟩)]
        (.fixedCap 51)).update_window_size (some 1)).1.data_buffers
      = [("a", ⟨2, takeLast 2 [1, 2, 3, 4, 5]⟩)] ∧
    (takeLast 2 ([1, 2, 3, 4, 5] : List ℚ)).length = min 5 2 := by
  have h := (update_window_size_resizes
    (AnalysisState.mk "fft" 50 (1/2) [("a", ⟨51, [1, 2, 3, 4, 5]⟩)]
      (.fixedCap 51)) 1).1 (by decide) (by decide)
  refine ⟨h.2.2.1, ?_⟩
  have h2 := (h.2.2.2 ("a", ⟨51, [1, 2, 3, 4, 5]⟩) (by simp)).1
  simpa using h2

/-- C10: passing `window_size = 0` or `score_threshold = 0.0` to the batch
endpoint is indistinguishable from omitting the parameter: the assembled
method parameters drop the key (so the detector sees its own default), and
the channel buffers get the default capacity
`DEFAULT_WINDOWS_SIZE + 1 = 65`. -/
theorem zero_batch_params_behave_as_omitted
    (D : Option ℤ → Option ℚ → DetFun) (w : Option ℤ) (t : Option ℚ)
    (rows : List Row) :
    analyze_file_run D (some 0) t rows = analyze_file_run D none t rows ∧
    analyze_file_run D w (some 0) rows = analyze_file_run D w none rows ∧
    windowParamOf (some 0) = none ∧
    thresholdParamOf (some 0) = none ∧
    dequeLengthOf (some 0) = DEFAULT_WINDOWS_SIZE + 1 ∧
    dequeLengthOf none = 65 :=
  ⟨rfl, rfl, rfl, rfl, rfl, rfl⟩

/-- C3 counterexample: a detector fault on a single cell (channel `a`,
first row — the same detector succeeds on every other cell) makes the whole
batch loop of `analyze_file` return an error: no row of the batch receives
any decision, because the per-row `asyncio.gather` re-raises the exception
and `analyze_file` does not catch it. -/
theorem batch_run_aborted_by_detector_error :
    badDet "a" [1] = Except.error () ∧
    badDet "a" [1, 3] = Except.ok false ∧
    badDet "b" [2] = Except.ok false ∧
    analyze_file_loop badDet 65 [] cexRows = Except.error () :=
  ⟨rfl, rfl, rfl, rfl⟩

/-- C3 (amended): a detector error is absorbed as a `false` decision for
the cell only on the path through `apply_analysis_method` (the streaming
loop), which moreover hands every channel of the record a decision; in the
batch loop of `analyze_file` the detector calls are gathered directly, so
one erroneous task makes the whole gather — and with it the batch run —
fail. -/
theorem detector_error_absorbed_in_stream_not_batch :
    (∀ (n : ℕ) (e : Unit), 2 ≤ n →
      apply_analysis_method true n (Except.error e) = false) ∧
    (∀ (det : DetFun) (known : Bool) (n : ℕ)
      (bufs : List (String × List ℚ)) (cells : List (String × ℚ)),
      (streamProcessRecord det known n bufs cells).1.length
        = cells.length) ∧
    (∀ (det : DetFun) (n : ℕ) (bufs : List (String × List ℚ))
      (cells : List (String × ℚ)),
      (∃ t ∈ (rowTasks det n bufs cells).1, ∃ e, t = Except.error e) →
      ∃ e, gather (rowTasks det n bufs cells).1 = Except.error e) := by
  refine ⟨?_, ?_, ?_⟩
  · intro n e hn
    simp [apply_analysis_method, Nat.not_lt.mpr hn]
  · intro det known n bufs cells
    exact streamProcessRecord_length det known n cells bufs
  · intro det n bufs cells h
    exact gather_error_of_mem _ h

/-- Witness for the amended C3 at concrete inputs. -/
theorem detector_error_absorbed_in_stream_not_batch_w :
    apply_analysis_method true 2 (Except.error ()) = false ∧
    (streamProcessRecord badDet true 65 [] [("a", 1), ("b", 2)]).1.length
      = 2 ∧
    ∃ e, gather (rowTasks badDet 65 [] [("a", 1), ("b", 2)]).1
      = Except.error e := by
  have hcomp : (rowTasks badDet 65 [] [("a", 1), ("b", 2)]).1
      = [Except.error (), Except.ok false] := rfl
  refine ⟨detector_error_absorbed_in_stream_not_batch.1 2 () (by decide),
    detector_error_absorbed_in_stream_not_batch.2.1 badDet true 65 [] _,
    detector_error_absorbed_in_stream_not_batch.2.2 badDet 65 [] _ ?_⟩
  refine ⟨Except.error (), ?_, (), rfl⟩
  rw [hcomp]
  exact List.mem_cons_self _ _

/-- C1: for a channel with a safety-limit entry, once the AMMAD history
(after appending the current sample) holds at least 20 samples, any sample
strictly below the entry's `min` or strictly above its `max` is reported
anomalous, whatever the statistical sub-scores, the weights, and the
consensus vote are. -/
theorem ammad_safety_limit_short_circuit (param : String)
    (lim : SafetyLimit) (history : List ℚ) (value s_z s_lof s_fft : ℚ)
    (orig_votes : ℕ)
    (hlim : SAFETY_LIMITS_app param = some lim)
    (hout : value < lim.min ∨ lim.max < value)
    (hlen : 19 ≤ history.length) :
    AMMAD_detect param history value s_z s_lof s_fft orig_votes = true := by
  have hlen' : ¬ (takeLast 300 (history ++ [value])).length < 20 := by
    rw [takeLast_length, List.length_append]
    simp only [List.length_singleton]
    omega
  simp only [AMMAD_detect, hlim, if_neg hlen']
  rcases hout with h | h
  · by_cases hmax : value > lim.max
    · simp [hmax]
    · simp [hmax, h]
  · simp [gt_iff_lt, h]

/-- Witness for C1: channel `глубина` (bounds `[0, 10000]`), twenty-sample
history, sample `20000`. -/
theorem ammad_safety_limit_short_circuit_w :
    AMMAD_detect "глубина" (List.replicate 19 0) 20000 0 0 0 0 = true :=
  ammad_safety_limit_short_circuit "глубина" ⟨0, 10000, 9000⟩
    (List.replicate 19 0) 20000 0 0 0 0 rfl (by norm_num) (by simp)

/-- C2: every detector reports no anomaly while its input is below its
minimum fill: Z-score and LOF on at most `W` samples, FFT on fewer than `W`
samples, and AMMAD on a per-channel history of fewer than 20 samples
(including the sample being appended). -/
theorem detectors_return_false_during_warmup :
    (∀ (d : List ℝ) (W : ℕ) (τ : ℝ), d.length ≤ W →
      z_score d W τ = false) ∧
    (∀ (d : List ℚ) (W : ℕ) (τ : ℚ), d.length ≤ W → lof d W τ = false) ∧
    (∀ (d : List ℝ) (W : ℕ) (τ : ℝ), d.length < W → fft d W τ = false) ∧
    (∀ (param : String) (history : List ℚ) (value s_z s_lof s_fft : ℚ)
      (orig_votes : ℕ), history.length + 1 < 20 →
      AMMAD_detect param history value s_z s_lof s_fft orig_votes
        = false) := by
  refine ⟨?_, ?_, ?_, ?_⟩
  · intro d W τ h
    simp [z_score, h]
  · intro d W τ h
    simp [lof, h]
  · intro d W τ h
    simp [fft, h]
  · intro param history value s_z s_lof s_fft orig_votes h
    have hl : (takeLast 300 (history ++ [value])).length < 20 := by
      rw [takeLast_length, List.length_append]
      simp only [List.length_singleton]
      omega
    simp [AMMAD_detect, hl]

/-- Witness for C2: all four detectors on under-filled inputs. -/
theorem detectors_return_false_during_warmup_w :
    z_score [1, 2] 5 3 = false ∧
    lof [1, 2] 5 3 = false ∧
    fft [1, 2] 5 (3/10) = false ∧
    AMMAD_detect "дмк" [1] 2 0 0 0 0 = false :=
  ⟨detectors_return_false_during_warmup.1 [1, 2] 5 3 (by decide),
   detectors_return_false_during_warmup.2.1 [1, 2] 5 3 (by decide),
   detectors_return_false_during_warmup.2.2.1 [1, 2] 5 (3/10) (by decide),
   detectors_return_false_during_warmup.2.2.2 "дмк" [1] 2 0 0 0 0
     (by decide)⟩

/-- C9: once the AMMAD history has reached the configured minimum (40,
which every reachable state with a remembered previous sample satisfies),
a jump from the remembered previous sample exceeding the channel's
`max_change_rate` — or, for channels whose name contains `давлен` or
`момент`, exceeding the `pressure_spike` or `torque_spike` sub-limit —
makes `detect` report an anomaly before the statistical pipeline runs,
whatever that pipeline would have answered. -/
theorem ammad_rate_of_change_short_circuit (param : String)
    (history : List ℚ) (prev value : ℚ) (stat_verdict : Bool)
    (hlen : 39 ≤ history.length)
    (htrig :
      (∃ r, (get_param_config param).max_change_rate = some r
          ∧ r < |value - prev|) ∨
      (strContains param "давлен" = true
          ∧ (get_param_config param).pressure_spike.getD 20
              < |value - prev|) ∨
      (strContains param "момент" = true
          ∧ (get_param_config param).torque_spike.getD 2
              < |value - prev|)) :
    (backend_detect param history (some prev) value stat_verdict).1
      = true := by
  have hlen40 : ¬ (takeLast 300 (history ++ [value])).length
      < (get_param_config param).min_history := by
    rw [min_history_eq_forty, takeLast_length, List.length_append]
    simp only [List.length_singleton]
    omega
  have hlen10 : ¬ (takeLast 300 (history ++ [value])).length < 10 := by
    rw [takeLast_length, List.length_append]
    simp only [List.length_singleton]
    omega
  have hrc := rate_check_fires param prev value htrig
  simp only [backend_detect, if_neg hlen40]
  simp only [detect_special_cases, if_neg hlen10]
  rcases hsl : SAFETY_LIMITS_backend param with _ | limits
  · rcases hpair : rate_check param (some prev) value with ⟨fst, snd⟩
    rw [hpair] at hrc
    simp only at hrc
    subst hrc
    rfl
  · by_cases h1 : value < limits.min
    · simp [h1]
    · by_cases h2 : value > limits.max
      · simp [h1, h2]
      · by_cases h3 : value > limits.critical
        · simp [h1, h2, h3]
        · simp only [if_neg h1, if_neg h2, if_neg h3]
          rcases hpair : rate_check param (some prev) value with ⟨fst, snd⟩
          rw [hpair] at hrc
          simp only at hrc
          subst hrc
          rfl

/-- Witness for C9: channel `давление_на_входе`, previous sample `100`,
current sample `140` — the jump of `40` is within `max_change_rate = 50`
but beyond the channel's `pressure_spike = 30`. -/
theorem ammad_rate_of_change_short_circuit_w :
    (backend_detect "давление_на_входе" (List.replicate 39 100) (some 100)
      140 false).1 = true :=
  ammad_rate_of_change_short_circuit "давление_на_входе"
    (List.replicate 39 100) 100 140 false (by simp)
    (Or.inr (Or.inl ⟨by decide, by
      have h : (get_param_config "давление_на_входе").pressure_spike.getD 20
          = 30 := rfl
      rw [h]
      norm_num⟩))

/-- C5: for an input longer than `W`, the Z-score window is exactly the `W`
elements preceding the last sample; a window whose population standard
deviation is below `0.01` forces the verdict `false` whatever the current
sample is; otherwise the verdict is `true` exactly when the absolute
deviation of the current sample from the window mean, in units of the
window standard deviation, exceeds the threshold. -/
theorem z_score_characterization (d : List ℝ) (W : ℕ) (τ : ℝ)
    (h : W < d.length) :
    zWindow d W = d.dropLast.drop (d.length - 1 - W) ∧
    (zWindow d W).length = W ∧
    (listStd (zWindow d W) < 0.01 → z_score d W τ = false) ∧
    (¬ listStd (zWindow d W) < 0.01 →
      (z_score d W τ = true ↔
        |(d.getLastD 0 - listMean (zWindow d W)) / listStd (zWindow d W)|
          > τ)) := by
  have hnle : ¬ d.length ≤ W := not_le.mpr h
  refine ⟨?_, ?_, ?_, ?_⟩
  · rw [List.dropLast_eq_take, List.drop_take]
    unfold zWindow
    have h1 : d.length - (W + 1) = d.length - 1 - W := by omega
    have h2 : d.length - 1 - (d.length - 1 - W) = W := by omega
    rw [h1, h2]
  · unfold zWindow
    rw [List.length_take, List.length_drop]
    omega
  · intro hstd
    simp [z_score, hnle, hstd]
  · intro hstd
    simp [z_score, hnle, hstd]

/-- Witness for C5 at a two-sample input with `W = 1`. -/
theorem z_score_characterization_w :
    zWindow ([1, 2] : List ℝ) 1 = [1, 2].dropLast.drop 0 ∧
    (zWindow ([1, 2] : List ℝ) 1).length = 1 ∧
    (listStd (zWindow ([1, 2] : List ℝ) 1) < 0.01 →
      z_score [1, 2] 1 3 = false) ∧
    (¬ listStd (zWindow ([1, 2] : List ℝ) 1) < 0.01 →
      (z_score [1, 2] 1 3 = true ↔
        |(([1, 2] : List ℝ).getLastD 0
            - listMean (zWindow ([1, 2] : List ℝ) 1))
          / listStd (zWindow ([1, 2] : List ℝ) 1)| > 3)) :=
  z_score_characterization [1, 2] 1 3 (by decide)

/-- Sorted-range slice helper: taking from `range' s n` keeps a shorter
arithmetic range. -/
theorem take_range_tail (s n m : ℕ) :
    (List.range' s n).take m = List.range' s (min n m) := by
  induction n generalizing s m with
  | zero => simp
  | succ k ih =>
    cases m with
    | zero => simp
    | succ j =>
      rw [List.range'_succ, List.take_succ_cons, ih (s + 1) j]
      have hmin : (k + 1) ⊓ (j + 1) = k ⊓ j + 1 := by omega
      rw [hmin, List.range'_succ]

/-- Dropping from `range' s n` shifts the arithmetic range. -/
theorem drop_range_tail (s n m : ℕ) :
    (List.range' s n).drop m = List.range' (s + m) (n - m) := by
  induction m generalizing s n with
  | zero => simp
  | succ j ih =>
    cases n with
    | zero => simp
    | succ k =>
      rw [List.range'_succ, List.drop_succ_cons, ih (s + 1) k]
      congr 1 <;> omega

/-- Summing a function mapped over `range' s n` is the sum over the
interval `[s, s + n)`. -/
theorem sum_map_range_tail (f : ℕ → ℝ) (s n : ℕ) :
    ((List.range' s n).map f).sum = ∑ k ∈ Finset.Ico s (s + n), f k := by
  induction n generalizing s with
  | zero => simp
  | succ k ih =>
    rw [List.range'_succ, List.map_cons, List.sum_cons, ih (s + 1)]
    rw [Finset.sum_eq_sum_Ico_succ_bot (by omega : s < s + (k + 1)) f]
    have hb : s + 1 + k = s + (k + 1) := by omega
    rw [hb]

/-- The sum over the Python slice `xs[a:b]` of a sequence built by mapping
`f` over `range W` is the sum of `f` over the half-open index interval
`[a, b)` (for `a ≤ b ≤ W`). -/
theorem slice_sum_eq_Ico (f : ℕ → ℝ) (a b W : ℕ) (hab : a ≤ b)
    (hbW : b ≤ W) :
    ((((List.range W).map f).drop a).take (b - a)).sum
      = ∑ k ∈ Finset.Ico a b, f k := by
  rw [← List.map_drop, List.range_eq_range', drop_range_tail,
    Nat.zero_add, ← List.map_take, take_range_tail]
  have hmin : min (W - a) (b - a) = b - a := by omega
  rw [hmin, sum_map_range_tail f a (b - a)]
  have hb : a + (b - a) = b := by omega
  rw [hb]

/-- C6: for an input of at least `W` samples, the FFT detector verdict is
`false` when the total of the DFT magnitudes of the mean-subtracted,
Hann-weighted last-`W` block is below `EPS`, and otherwise `true` exactly
when the share of that total carried by the magnitudes at the half-open
index range `[W/4, W/2)` exceeds the threshold. -/
theorem fft_characterization (d : List ℝ) (W : ℕ) (τ : ℝ)
    (h : W ≤ d.length) :
    ((fftMagnitudes d W).sum < EPS_R → fft d W τ = false) ∧
    (¬ (fftMagnitudes d W).sum < EPS_R →
      (fft d W τ = true ↔
        (∑ k ∈ Finset.Ico (W / 4) (W / 2),
            dft_magnitude (fftWeighted d W) W k)
          / (fftMagnitudes d W).sum > τ)) := by
  have hnlt : ¬ d.length < W := not_lt.mpr h
  constructor
  · intro hlow
    simp [fft, hnlt, hlow]
  · intro hlow
    have hslice : (((fftMagnitudes d W).drop (W / 4)).take
        (W / 2 - W / 4)).sum
        = ∑ k ∈ Finset.Ico (W / 4) (W / 2),
            dft_magnitude (fftWeighted d W) W k := by
      unfold fftMagnitudes
      exact slice_sum_eq_Ico _ _ _ _
        (Nat.div_le_div_left (by norm_num) (by norm_num))
        (Nat.div_le_self _ _)
    simp [fft, hnlt, hlow, hslice]

/-- Witness for C6 at a one-sample input with `W = 1`. -/
theorem fft_characterization_w :
    ((fftMagnitudes [1] 1).sum < EPS_R → fft [1] 1 (3/10) = false) ∧
    (¬ (fftMagnitudes [1] 1).sum < EPS_R →
      (fft [1] 1 (3/10) = true ↔
        (∑ k ∈ Finset.Ico (1 / 4) (1 / 2),
            dft_magnitude (fftWeighted [1] 1) 1 k)
          / (fftMagnitudes [1] 1).sum > 3/10)) :=
  fft_characterization [1] 1 (3/10) (by decide)

/-- A two-branch if-chain returning `true` twice and `false` at the end is
`true` exactly when one of the two conditions holds. -/
theorem ite_ite_false_eq_true_iff (A B : Prop) [Decidable A]
    [Decidable B] :
    ((if A then true else if B then true else false) = true) ↔ A ∨ B := by
  split_ifs with h1 h2
  · simp [h1]
  · simp [h1, h2]
  · simp [h1, h2]

/-- C4 (amended): the decision step of the backend AMMAD taken apart — with
consensus required the verdict is `true` exactly when at least two of the
three normalised sub-scores exceed `0.7` and the combined score reaches the
confidence threshold, or the combined score reaches the threshold plus
`0.15`; without consensus exactly when the combined score reaches the
threshold, or some normalised sub-score exceeds `0.9` and the combined
score exceeds the threshold minus `0.1`.  The votes are counts of
normalised sub-scores, not of raw component-detector verdicts. -/
theorem ammad_decision_characterization (rc : Bool)
    (τ zN lN fN zW lW fW : ℝ) :
    (rc = true →
      (ammad_decision rc τ zN lN fN zW lW fW = true ↔
        ((2 ≤ (if zN > 0.7 then 1 else 0) + (if lN > 0.7 then 1 else 0)
              + (if fN > 0.7 then (1 : ℕ) else 0)
          ∧ τ ≤ zN * zW + lN * lW + fN * fW)
         ∨ τ + 0.15 ≤ zN * zW + lN * lW + fN * fW))) ∧
    (rc = false →
      (ammad_decision rc τ zN lN fN zW lW fW = true ↔
        (τ ≤ zN * zW + lN * lW + fN * fW
         ∨ ((0.9 < zN ∨ 0.9 < lN ∨ 0.9 < fN)
            ∧ τ - 0.1 < zN * zW + lN * lW + fN * fW)))) := by
  constructor
  · rintro rfl
    simp only [ammad_decision, if_true]
    rw [ite_ite_false_eq_true_iff]
  · rintro rfl
    simp only [ammad_decision, Bool.false_eq_true, if_false]
    rw [ite_ite_false_eq_true_iff, lt_max_iff, lt_max_iff]

/-- Witness for the amended C4 at concrete sub-scores and weights. -/
theorem ammad_decision_characterization_w :
    ammad_decision true (4/5) 1 1 1 (1/3) (1/3) (1/3) = true ↔
      ((2 ≤ (if (1:ℝ) > 0.7 then 1 else 0) + (if (1:ℝ) > 0.7 then 1 else 0)
            + (if (1:ℝ) > 0.7 then (1 : ℕ) else 0)
        ∧ (4/5 : ℝ) ≤ 1 * (1/3) + 1 * (1/3) + 1 * (1/3))
       ∨ (4/5 : ℝ) + 0.15 ≤ 1 * (1/3) + 1 * (1/3) + 1 * (1/3)) :=
  (ammad_decision_characterization true (4/5) 1 1 1 (1/3) (1/3) (1/3)).1
    rfl

/-- The backend sigmoid normalisation of a raw Z-score of exactly `3` (the
Z threshold) is `1/2`. -/
theorem normalize_z_at_three : normalize_z 3 = 1/2 := by
  unfold normalize_z
  have h : (-((3:ℝ) - 3) / 1.5) = 0 := by norm_num
  rw [h, Real.exp_zero]
  norm_num

/-- The ratio `log 16 / log 25` is below `1`. -/
theorem log1625_lt_one : Real.log 16 / Real.log 25 < 1 := by
  have h25 : (0:ℝ) < Real.log 25 := Real.log_pos (by norm_num)
  rw [div_lt_one h25]
  exact Real.log_lt_log (by norm_num) (by norm_num)

/-- The ratio `log 16 / log 25` is at least `4/5` (since `16^5 ≥ 25^4`). -/
theorem log1625_ge_four_fifths : (4:ℝ)/5 ≤ Real.log 16 / Real.log 25 := by
  have h25 : (0:ℝ) < Real.log 25 := Real.log_pos (by norm_num)
  rw [le_div_iff₀ h25]
  have h : Real.log ((25:ℝ) ^ (4:ℕ)) < Real.log ((16:ℝ) ^ (5:ℕ)) :=
    Real.log_lt_log (by positivity) (by norm_num)
  rw [Real.log_pow, Real.log_pow] at h
  push_cast at h
  linarith

/-- The ratio `log 16 / log 25` exceeds `7/10` (since `16^10 > 25^7`). -/
theorem log1625_gt_seven_tenths :
    (7:ℝ)/10 < Real.log 16 / Real.log 25 := by
  have h25 : (0:ℝ) < Real.log 25 := Real.log_pos (by norm_num)
  rw [lt_div_iff₀ h25]
  have h : Real.log ((25:ℝ) ^ (7:ℕ)) < Real.log ((16:ℝ) ^ (10:ℕ)) :=
    Real.log_lt_log (by positivity) (by norm_num)
  rw [Real.log_pow, Real.log_pow] at h
  push_cast at h
  linarith

/-- The backend LOF normalisation of a raw LOF score of `16` is the ratio
`log 16 / log 25`. -/
theorem normalize_lof_at_sixteen :
    normalize_lof 16 = Real.log 16 / Real.log 25 := by
  unfold normalize_lof
  rw [if_neg (by norm_num : ¬ (16:ℝ) ≤ 1)]
  have h1 : (1 + ((16:ℝ) - 1)) = 16 := by norm_num
  have h2 : ((1:ℝ) + 24) = 25 := by norm_num
  rw [h1, h2]
  exact min_eq_right (le_of_lt log1625_lt_one)

/-- The backend FFT normalisation of a raw high-frequency share of `1/5`
is `4/5`. -/
theorem normalize_fft_at_fifth : normalize_fft (1/5) = 4/5 := by
  unfold normalize_fft
  have h : ((1/5 : ℝ) / 0.25) = 4/5 := by norm_num
  rw [h]
  exact min_eq_right (by norm_num)

/-- Evaluation of the claim's raw-verdict vote count at raw scores
`(3, 16, 1/5)`: none of the three component detectors fires (each raw score
is at or below its own threshold), so the claim's vote count is `0`. -/
theorem specRawVotes_eval : specRawVotes 3 16 (1/5) = 0 := by
  unfold specRawVotes
  rw [if_neg (by norm_num : ¬ ((3:ℝ) > 3)),
    if_neg (by norm_num : ¬ ((16:ℝ) > 25)),
    if_neg (by norm_num : ¬ ((1/5:ℝ) > 0.25))]

/-- C4 counterexample: at raw sub-scores `(3, 16, 1/5)` on a
consensus-requiring channel with threshold `0.8` and weights
`(0, 1/2, 1/2)`, the code's decision step answers `true` (two normalised
sub-scores exceed `0.7` and the combined score reaches the threshold), but
the claim's formula — with votes counted from the raw component verdicts,
all three of which are negative here — demands the high-confidence
override `S ≥ τ + 0.15`, which fails; so the claim, as stated, is false. -/
theorem ammad_decision_claim_counterexample :
    ammad_decision true (4/5) (normalize_z 3) (normalize_lof 16)
      (normalize_fft (1/5)) 0 (1/2) (1/2) = true ∧
    specRawVotes 3 16 (1/5) = 0 ∧
    ¬ ((2 ≤ specRawVotes 3 16 (1/5) ∧
        (4/5 : ℝ) ≤ normalize_z 3 * 0 + normalize_lof 16 * (1/2)
          + normalize_fft (1/5) * (1/2)) ∨
       (4/5 : ℝ) + 0.15 ≤ normalize_z 3 * 0 + normalize_lof 16 * (1/2)
          + normalize_fft (1/5) * (1/2)) := by
  have hz := normalize_z_at_three
  have hl := normalize_lof_at_sixteen
  have hf := normalize_fft_at_fifth
  have hge := log1625_ge_four_fifths
  have hlt1 := log1625_lt_one
  have hgt7 := log1625_gt_seven_tenths
  refine ⟨?_, specRawVotes_eval, ?_⟩
  · simp only [ammad_decision, if_true]
    rw [hz, hl, hf]
    rw [ite_ite_false_eq_true_iff]
    left
    constructor
    · rw [if_neg (by norm_num : ¬ ((1/2:ℝ) > 0.7)),
        if_pos (show Real.log 16 / Real.log 25 > 0.7 by
          rw [gt_iff_lt, show (0.7:ℝ) = 7/10 by norm_num]
          exact log1625_gt_seven_tenths),
        if_pos (by norm_num : (4/5:ℝ) > 0.7)]
    · linarith
  · rintro (⟨h2, _⟩ | hS)
    · rw [specRawVotes_eval] at h2
      exact absurd h2 (by norm_num)
    · rw [hz, hl, hf] at hS
      linarith

end WellPro
